import Mathlib

/-!
# Verification of the brand-interaction visualization pipeline

A shallow embedding, in Lean 4, of the data-transformation pipeline of the
brand-interaction visualization tool (`visualizations.py`,
`create_presentation_dashboard.py`, `generate_static_images.py`).

The source is a pandas/plotly batch script: rows of a CSV with columns
`Brand, Topic, Interactions, Estimated_Reach, Results, Comments` are
aggregated, pivoted and ranked, then rendered.  Rendering itself (plotly
figure layout, colors as pixels) is outside the embedding; the node/link
structure, the pivoted matrix, the ranking, the share arithmetic, and the
control flow of the exporters are embedded faithfully and verified below.
-/

namespace BrandViz

/-- One row of the input table `data.csv`
(columns `Brand, Topic, Interactions, Estimated_Reach, Results, Comments`). -/
structure Record where
  brand : String
  topic : String
  interactions : Nat
  estimatedReach : Nat
  results : Nat
  comments : Nat
deriving DecidableEq

/-- The in-memory table `df` (a list of rows, order as in the file). -/
abbrev Table := List Record

/-! ## Stable sort (the semantics of Python `sorted` / pandas ordering)

Python's `sorted(xs, key=k)` is a stable ascending sort.  We model it as an
insertion sort where element `a` is inserted before the first element `b`
with `lt a b` (strictly less in the key order), hence after all earlier
elements whose key is ≤ — exactly stability. -/

def insertKey (lt : α → α → Bool) (a : α) : List α → List α
  | [] => [a]
  | b :: l => if lt a b then a :: b :: l else b :: insertKey lt a l

def sortKey (lt : α → α → Bool) (l : List α) : List α :=
  l.foldl (fun acc a => insertKey lt a acc) []

/-! ## First-occurrence deduplication (pandas `Series.unique`) -/

def uniqueAux (seen : List String) : List String → List String
  | [] => []
  | a :: l => if a ∈ seen then uniqueAux seen l else a :: uniqueAux (a :: seen) l

/-- `pandas.Series.unique`: distinct values in order of first appearance. -/
def uniqueFirst (l : List String) : List String := uniqueAux [] l

/-! ## Color assignment (`create_color_map`, visualizations.py lines 49-56) -/

/-- `KYOCERA_PRIMARY`: the reserved highlight color for the focus brand. -/
def KYOCERA_PRIMARY : String := "#E4032E"

/-- `BRAND_COLORS`: the fixed palette for non-focus brands. -/
def BRAND_COLORS : List String :=
  ["#3498DB", "#2ECC71", "#E67E22", "#9B59B6", "#1ABC9C", "#34495E",
   "#16A085", "#8E44AD", "#C0392B", "#D35400", "#7F8C8D"]

/-- `create_color_map(brands)`: the Python dict as an association list in
assignment order.  `Kyocera` is assigned first; every other brand `b` at
position `i` of the focus-filtered input gets `BRAND_COLORS[i % len]`. -/
def create_color_map (brands : List String) : List (String × String) :=
  let other_brands := brands.filter (fun b => !(b == "Kyocera"))
  ("Kyocera", KYOCERA_PRIMARY) ::
    other_brands.enum.map
      (fun p => (p.2, BRAND_COLORS.getD (p.1 % BRAND_COLORS.length) ""))

/-- Python dict lookup: the latest assignment to a key wins. -/
def dictGet (m : List (String × String)) (k : String) : Option String :=
  match m with
  | [] => none
  | (k1, v1) :: rest =>
      match dictGet rest k with
      | some v => some v
      | none => if k1 == k then some v1 else none

/-! ## Metric aggregates (groupby sums) -/

/-- `df.groupby('Topic')['Interactions'].sum()[topic]`. -/
def topicTotal (t : Table) (top : String) : Nat :=
  ((t.filter (fun r => r.topic == top)).map (fun r => r.interactions)).sum

/-- `df.groupby('Brand')['Interactions'].sum()[brand]`. -/
def brandTotal (t : Table) (b : String) : Nat :=
  ((t.filter (fun r => r.brand == b)).map (fun r => r.interactions)).sum

/-! ## Sankey diagram (`create_sankey_diagram`, visualizations.py lines 65-174) -/

/-- `df_sankey = df[df['Interactions'] > 0]` (line 70). -/
def sankeyRows (t : Table) : Table :=
  t.filter (fun r => decide (0 < r.interactions))

/-- Lexicographic comparison of character lists by code point. -/
def charListLt : List Char → List Char → Bool
  | _, [] => false
  | [], _ :: _ => true
  | a :: as, b :: bs =>
      if a.val < b.val then true
      else if b.val < a.val then false
      else charListLt as bs

/-- String comparison used by Python `sorted` on strings: lexicographic by
code point. -/
def strLt (a b : String) : Bool := charListLt a.data b.data

/-- `topics = sorted(df_sankey['Topic'].unique().tolist())` (line 73). -/
def sankeyTopics (t : Table) : List String :=
  sortKey strLt (uniqueFirst ((sankeyRows t).map (fun r => r.topic)))

/-- `df_sankey[df_sankey['Brand']==x]['Interactions'].sum()` (line 75). -/
def sankeyBrandTotal (t : Table) (b : String) : Nat :=
  (((sankeyRows t).filter (fun r => r.brand == b)).map
    (fun r => r.interactions)).sum

/-- The sort key of line 75: `(x != 'Kyocera', -interactions_sum)`,
as a strict lexicographic less-than on the pair. -/
def sankeyBrandLt (t : Table) (a b : String) : Bool :=
  let ka := !(a == "Kyocera")
  let kb := !(b == "Kyocera")
  (!ka && kb) || (ka == kb && decide (sankeyBrandTotal t b < sankeyBrandTotal t a))

/-- `brands_list = sorted(df_sankey['Brand'].unique().tolist(), key=...)`
(lines 74-75): Kyocera first, then descending total interactions, stable. -/
def sankeyBrands (t : Table) : List String :=
  sortKey (sankeyBrandLt t) (uniqueFirst ((sankeyRows t).map (fun r => r.brand)))

/-- The node list of the Sankey figure: topic nodes followed by brand nodes
(`node_labels = topic_labels + brand_labels`, lines 78-80; here identified by
the underlying topic/brand name the label is rendered from). -/
def sankeyNodeNames (t : Table) : List String :=
  sankeyTopics t ++ sankeyBrands t

/-- One Sankey link: source node index, target node index, flow value. -/
structure SankeyLink where
  src : Nat
  tgt : Nat
  val : Nat
deriving DecidableEq

/-- The link lists built by the loop over `df_sankey.iterrows()` (lines
93-109): one link per positive-interaction row, from the row's topic node
(`topic_indices`, line 83) to its brand node (`brand_indices`, line 84,
offset by `len(topics)`), valued by the row's interaction count. -/
def sankeyLinks (t : Table) : List SankeyLink :=
  (sankeyRows t).map (fun r =>
    { src := (sankeyTopics t).indexOf r.topic
      tgt := (sankeyTopics t).length + (sankeyBrands t).indexOf r.brand
      val := r.interactions })

/-! ## Heatmap pivot (`create_heatmap`, visualizations.py lines 179-278) -/

/-- The `(Brand, Topic)` key of each row: the pivot's implicit index. -/
def pairKeys (t : Table) : List (String × String) :=
  t.map (fun r => (r.brand, r.topic))

/-- Row labels of `df.pivot(index='Brand', ...)`: distinct brands, sorted. -/
def pivotBrands (t : Table) : List String :=
  sortKey strLt (uniqueFirst (t.map (fun r => r.brand)))

/-- Column labels of `df.pivot(columns='Topic', ...)`: distinct topics, sorted. -/
def pivotTopics (t : Table) : List String :=
  sortKey strLt (uniqueFirst (t.map (fun r => r.topic)))

/-- One cell of `df.pivot(index='Brand', columns='Topic',
values='Interactions')` (line 184): `some v` when a record for the
combination exists with value `v`, `none` (pandas `NaN`) when the
combination has no record. -/
def pivotCell (t : Table) (b top : String) : Option Nat :=
  ((t.filter (fun r => r.brand == b && r.topic == top)).head?).map
    (fun r => r.interactions)

/-- `df.pivot` itself: pandas raises
`ValueError: Index contains duplicate entries, cannot reshape` when some
`(Brand, Topic)` pair occurs in more than one row; otherwise it produces the
brand×topic matrix of cells. -/
def heatmapResult (t : Table) : Except String (List (List (Option Nat))) :=
  if (pairKeys t).Nodup then
    Except.ok ((pivotBrands t).map (fun b =>
      (pivotTopics t).map (fun top => pivotCell t b top)))
  else
    Except.error "Index contains duplicate entries, cannot reshape"

/-! ## Market share (`create_kyocera_market_share`, lines 539-616) -/

/-- `kyocera_data.loc[topic, 'Interactions'] if topic in kyocera_data.index
else 0` (line 550), where `kyocera_data = df[df['Brand'] ==
'Kyocera'].set_index('Topic')` (line 545). -/
def kyoceraVal (t : Table) (top : String) : Nat :=
  ((((t.filter (fun r => r.brand == "Kyocera")).filter
      (fun r => r.topic == top)).head?).map (fun r => r.interactions)).getD 0

/-- `share = (kyocera_val / total * 100) if total > 0 else 0` (line 551). -/
def kyoceraShare (t : Table) (top : String) : ℚ :=
  if 0 < topicTotal t top then
    (kyoceraVal t top : ℚ) / (topicTotal t top : ℚ) * 100
  else 0

/-! ## Top-N brand selection (`create_topic_breakdown`, lines 389-459) -/

/-- `df.groupby('Brand')` key order: distinct brands sorted by name. -/
def allBrands (t : Table) : List String :=
  sortKey strLt (uniqueFirst (t.map (fun r => r.brand)))

/-- `df.groupby('Brand')['Interactions'].sum().nlargest(6).index.tolist()`
(line 394) in ranked order: stable descending sort of the grouped sums, then
the first six.  `nlargest` keeps the earlier (alphabetically first) brand on
ties, which the stable sort over the alphabetical groupby order reproduces. -/
def brandRanking (t : Table) : List String :=
  sortKey (fun a b => decide (brandTotal t b < brandTotal t a)) (allBrands t)

/-- `top_brands` with the forced inclusion of lines 397-398:
`if 'Kyocera' not in top_brands: top_brands = ['Kyocera'] + top_brands[:5]`. -/
def top_brands (t : Table) : List String :=
  let tb := (brandRanking t).take 6
  if "Kyocera" ∈ tb then tb else "Kyocera" :: tb.take 5

/-! ## Combined dashboard (`create_presentation_dashboard.py`)

The script builds `fig1 .. fig6` sequentially (lines 21-26), splices their
JSON serializations into one HTML template (lines 205-214), and only then
performs the single write of `output/presentation_dashboard.html`
(lines 256-258).  A Python exception in any builder propagates and aborts
the script before the write statement is reached; we model a builder as
`Except String String` (error, or the figure's serialized spec). -/

/-- Force the six figure builders in order; the first exception propagates
(no later builder runs, no value is produced). -/
def buildAll : List (Except String String) → Except String (List String)
  | [] => Except.ok []
  | b :: bs =>
      match b with
      | Except.error e => Except.error e
      | Except.ok s =>
          match buildAll bs with
          | Except.error e => Except.error e
          | Except.ok ss => Except.ok (s :: ss)

/-- `true` iff some builder raises. -/
def anyFailed (figs : List (Except String String)) : Bool :=
  figs.any (fun f =>
    match f with
    | Except.error _ => true
    | Except.ok _ => false)

/-- The combined-dashboard document: `some html` written exactly when all
six builders succeeded, `none` when the run aborted before the write. -/
def create_presentation_dashboard (figs : List (Except String String)) :
    Option String :=
  match buildAll figs with
  | Except.ok specs => some (String.intercalate "\n" specs)
  | Except.error _ => none

/-! ## Dashboard keyboard navigation (create_presentation_dashboard.py,
lines 240-249).  Six tab panels, indices 0-5. -/

inductive Key where
  | arrowRight
  | arrowLeft
  | other
deriving DecidableEq

/-- The `keydown` handler:
`if (e.key === 'ArrowRight' && currentIndex < 5) showTab(currentIndex + 1);
else if (e.key === 'ArrowLeft' && currentIndex > 0) showTab(currentIndex - 1);`
— any other case leaves the active panel unchanged. -/
def keydownHandler (k : Key) (currentIndex : Nat) : Nat :=
  match k with
  | Key.arrowRight => if currentIndex < 5 then currentIndex + 1 else currentIndex
  | Key.arrowLeft => if 0 < currentIndex then currentIndex - 1 else currentIndex
  | Key.other => currentIndex

/-! ## Static image export (`generate_static_images.py`, lines 37-79)

Inside one `try` block the script, for each chart in order, calls the
builder (which writes the chart's interactive HTML file as a side effect)
and then `fig.write_image(...)` for the PNG.  The first failing PNG export
raises; the `except` block prints the error plus actionable guidance and the
script ends.  Files already written are untouched by the handler. -/

/-- The six charts, in export order (lines 38-66). -/
def chartNames : List String :=
  ["sankey_brand_flow", "heatmap_interactions", "kyocera_comparison",
   "topic_breakdown", "scatter_reach_interactions", "kyocera_market_share"]

/-- The remediation hint printed by the `except` block (line 76). -/
def GUIDANCE_MESSAGE : String := "Make sure Chrome browser is installed!"

/-- The observable outcome of a run: files written, diagnostics printed. -/
structure ExportState where
  htmlFiles : List String
  pngFiles : List String
  diagnostics : List String
deriving DecidableEq

/-- The body of the `try` block: for each chart, the builder writes the HTML
artifact, then the PNG export either succeeds (`ok name = true`) or raises,
transferring control to the `except` block which prints the error and the
guidance and stops the run. -/
def exportLoop (ok : String → Bool) : List String → ExportState → ExportState
  | [], s => s
  | n :: rest, s =>
      if ok n then
        exportLoop ok rest
          { htmlFiles := s.htmlFiles ++ [n ++ ".html"]
            pngFiles := s.pngFiles ++ [n ++ ".png"]
            diagnostics := s.diagnostics }
      else
        { htmlFiles := s.htmlFiles ++ [n ++ ".html"]
          pngFiles := s.pngFiles
          diagnostics := s.diagnostics ++
            ["Error: PNG export failed for " ++ n, GUIDANCE_MESSAGE] }

/-- A full run of `generate_static_images.py` with PNG-export oracle `ok`. -/
def generate_static_images (ok : String → Bool) : ExportState :=
  exportLoop ok chartNames { htmlFiles := [], pngFiles := [], diagnostics := [] }

/-! ## Concrete tables used as witnesses and counterexamples -/

/-- Two positive rows, two topics, two brands. -/
def exFlow : Table :=
  [⟨"A", "T1", 10, 0, 0, 0⟩, ⟨"B", "T2", 5, 0, 0, 0⟩]

/-- A sparse table: the combination `("B", "T2")` has no record, and
`("A", "T2")` has a zero-interactions record. -/
def exSparse : Table :=
  [⟨"A", "T1", 5, 0, 0, 0⟩, ⟨"A", "T2", 0, 0, 0, 0⟩, ⟨"B", "T1", 3, 0, 0, 0⟩]

/-- Seven brands, one topic; the focus brand ranks last by interactions. -/
def exSeven : Table :=
  [⟨"A", "T", 70, 0, 0, 0⟩, ⟨"B", "T", 60, 0, 0, 0⟩, ⟨"C", "T", 50, 0, 0, 0⟩,
   ⟨"D", "T", 40, 0, 0, 0⟩, ⟨"E", "T", 30, 0, 0, 0⟩, ⟨"F", "T", 20, 0, 0, 0⟩,
   ⟨"Kyocera", "T", 10, 0, 0, 0⟩]

/-- Two records sharing the `("A", "T")` brand×topic pair. -/
def exDup : Table := [⟨"A", "T", 1, 0, 0, 0⟩, ⟨"A", "T", 2, 0, 0, 0⟩]

/-! ## Helper lemmas: the stable sort permutes its input -/

theorem insertKey_perm (lt : α → α → Bool) (a : α) (l : List α) :
    List.Perm (insertKey lt a l) (a :: l) := by
  induction l with
  | nil => simp [insertKey]
  | cons b l ih =>
      simp only [insertKey]
      by_cases h : lt a b = true
      · simp [h]
      · simp only [h, if_false]
        exact (ih.cons b).trans (List.Perm.swap a b l)

theorem sortKey_foldl_perm (lt : α → α → Bool) (l acc : List α) :
    List.Perm (l.foldl (fun acc a => insertKey lt a acc) acc) (acc ++ l) := by
  induction l generalizing acc with
  | nil => simp
  | cons a l ih =>
      simp only [List.foldl_cons]
      refine (ih (insertKey lt a acc)).trans ?_
      refine (List.Perm.append_right l (insertKey_perm lt a acc)).trans ?_
      exact List.perm_middle.symm

theorem sortKey_perm (lt : α → α → Bool) (l : List α) :
    List.Perm (sortKey lt l) l := by
  simpa using sortKey_foldl_perm lt l []

theorem mem_sortKey (lt : α → α → Bool) (l : List α) (a : α) :
    a ∈ sortKey lt l ↔ a ∈ l :=
  (sortKey_perm lt l).mem_iff

theorem length_sortKey (lt : α → α → Bool) (l : List α) :
    (sortKey lt l).length = l.length :=
  (sortKey_perm lt l).length_eq

theorem nodup_sortKey (lt : α → α → Bool) (l : List α) (h : l.Nodup) :
    (sortKey lt l).Nodup :=
  (sortKey_perm lt l).nodup_iff.mpr h

/-! ## Helper lemmas: first-occurrence deduplication -/

theorem mem_uniqueAux (l : List String) :
    ∀ (seen : List String) (x : String),
      x ∈ uniqueAux seen l ↔ x ∈ l ∧ x ∉ seen := by
  induction l with
  | nil => intro seen x; simp [uniqueAux]
  | cons a l ih =>
      intro seen x
      simp only [uniqueAux, List.mem_cons]
      by_cases h : a ∈ seen
      · rw [if_pos h, ih]
        constructor
        · rintro ⟨hx, hs⟩; exact ⟨Or.inr hx, hs⟩
        · rintro ⟨rfl | hx, hs⟩
          · exact absurd h hs
          · exact ⟨hx, hs⟩
      · rw [if_neg h]
        simp only [List.mem_cons, ih, not_or]
        constructor
        · rintro (rfl | ⟨hx, hxa, hs⟩)
          · exact ⟨Or.inl rfl, h⟩
          · exact ⟨Or.inr hx, hs⟩
        · rintro ⟨rfl | hx, hs⟩
          · exact Or.inl rfl
          · by_cases hxa : x = a
            · exact Or.inl hxa
            · exact Or.inr ⟨hx, hxa, hs⟩

theorem mem_uniqueFirst (l : List String) (x : String) :
    x ∈ uniqueFirst l ↔ x ∈ l := by
  simp [uniqueFirst, mem_uniqueAux]

theorem nodup_uniqueAux (l : List String) :
    ∀ seen : List String, (uniqueAux seen l).Nodup := by
  induction l with
  | nil => intro seen; simp [uniqueAux]
  | cons a l ih =>
      intro seen
      simp only [uniqueAux]
      by_cases h : a ∈ seen
      · simp only [h, if_true]; exact ih seen
      · simp only [h, if_false, List.nodup_cons]
        refine ⟨fun hc => ?_, ih (a :: seen)⟩
        exact ((mem_uniqueAux l (a :: seen) a).mp hc).2 (List.mem_cons_self a seen)

theorem nodup_uniqueFirst (l : List String) : (uniqueFirst l).Nodup :=
  nodup_uniqueAux l []

/-! ## Helper lemmas: sums over a partition by key -/

theorem sum_map_addf (f g : α → Nat) (l : List α) :
    (l.map (fun a => f a + g a)).sum = (l.map f).sum + (l.map g).sum := by
  induction l with
  | nil => simp
  | cons a l ih => simp only [List.map_cons, List.sum_cons, ih]; omega

theorem sum_map_single (x : String) (c : Nat) (ks : List String)
    (hnd : ks.Nodup) (hx : x ∈ ks) :
    (ks.map (fun k => if x = k then c else 0)).sum = c := by
  induction ks with
  | nil => cases hx
  | cons k ks ih =>
      rcases List.nodup_cons.mp hnd with ⟨hk, hnd2⟩
      rcases List.mem_cons.mp hx with rfl | hx2
      · have hz : (ks.map (fun k2 => if x = k2 then c else 0)).sum = 0 := by
          apply List.sum_eq_zero
          intro n hn
          rcases List.mem_map.mp hn with ⟨k2, hk2, rfl⟩
          rw [if_neg]
          rintro rfl
          exact hk hk2
        rw [List.map_cons, List.sum_cons, hz]
        simp
      · have hxk : x ≠ k := by rintro rfl; exact hk hx2
        rw [List.map_cons, List.sum_cons, if_neg hxk, ih hnd2 hx2]
        omega

/-- Summing interactions over the groups of a key that covers the list
reconciles with the ungrouped sum. -/
theorem sum_filter_partition (key : Record → String) (l : Table)
    (ks : List String) (hnd : ks.Nodup) (hall : ∀ r ∈ l, key r ∈ ks) :
    (ks.map (fun k => ((l.filter (fun r => key r == k)).map
        (fun r => r.interactions)).sum)).sum
      = (l.map (fun r => r.interactions)).sum := by
  induction l with
  | nil => simp
  | cons r l ih =>
      have hr : key r ∈ ks := hall r (List.mem_cons_self r l)
      have hall2 : ∀ x ∈ l, key x ∈ ks :=
        fun x hx => hall x (List.mem_cons_of_mem r hx)
      have hstep : ∀ k ∈ ks,
          (((r :: l).filter (fun x => key x == k)).map
              (fun x => x.interactions)).sum
            = (if key r = k then r.interactions else 0)
              + ((l.filter (fun x => key x == k)).map
                  (fun x => x.interactions)).sum := by
        intro k _
        by_cases h : key r = k
        · simp [List.filter_cons, h]
        · simp [List.filter_cons, h]
      rw [List.map_congr_left hstep, sum_map_addf, sum_map_single (key r)
        r.interactions ks hnd hr, ih hall2]
      simp

/-! ## Helper lemmas: the pivot under unique `(Brand, Topic)` pairs -/

/-- With duplicate-free `(Brand, Topic)` keys at most one row matches a
given pair. -/
theorem length_filter_pair_le (t : Table) (h : (pairKeys t).Nodup)
    (b top : String) :
    (t.filter (fun r => r.brand == b && r.topic == top)).length ≤ 1 := by
  rcases hm : t.filter (fun r => r.brand == b && r.topic == top) with
    _ | ⟨x, _ | ⟨y, rest⟩⟩
  · rw [hm]; simp
  · rw [hm]; simp
  · exfalso
    have hsub : List.Sublist ((t.filter
          (fun r => r.brand == b && r.topic == top)).map
          (fun r => (r.brand, r.topic)))
        (t.map (fun r => (r.brand, r.topic))) :=
      (List.filter_sublist t).map (fun r => (r.brand, r.topic))
    have hfull : (t.map (fun r => (r.brand, r.topic))).Nodup := h
    have hnd : ((t.filter (fun r => r.brand == b && r.topic == top)).map
        (fun r => (r.brand, r.topic))).Nodup := hfull.sublist hsub
    rw [hm] at hnd
    have hx : x ∈ t.filter (fun r => r.brand == b && r.topic == top) := by
      rw [hm]; exact List.mem_cons_self x _
    have hy : y ∈ t.filter (fun r => r.brand == b && r.topic == top) := by
      rw [hm]; exact List.mem_cons_of_mem x (List.mem_cons_self y rest)
    have hxp := (List.mem_filter.mp hx).2
    have hyp := (List.mem_filter.mp hy).2
    simp only [Bool.and_eq_true, beq_iff_eq] at hxp hyp
    have hkeys : (x.brand, x.topic) = (y.brand, y.topic) := by
      rw [hxp.1, hxp.2, hyp.1, hyp.2]
    simp only [List.map_cons, List.nodup_cons, List.mem_cons] at hnd
    exact hnd.1 (Or.inl hkeys)

/-- Under unique pairs the cell value (`NaN` read as 0, as pandas `sum`
does) is the sum of interactions of the matching rows. -/
theorem pivotCell_getD (t : Table) (h : (pairKeys t).Nodup) (b top : String) :
    (pivotCell t b top).getD 0
      = ((t.filter (fun r => r.brand == b && r.topic == top)).map
          (fun r => r.interactions)).sum := by
  have hlen := length_filter_pair_le t h b top
  rcases hm : t.filter (fun r => r.brand == b && r.topic == top) with
    _ | ⟨x, tl⟩
  · simp [pivotCell, hm]
  · rcases tl with _ | ⟨y, rest⟩
    · simp [pivotCell, hm]
    · rw [hm] at hlen; simp at hlen

/-- Under unique pairs the cell of a present record is that record's
interaction count. -/
theorem pivotCell_of_mem (t : Table) (h : (pairKeys t).Nodup) (r : Record)
    (hr : r ∈ t) : pivotCell t r.brand r.topic = some r.interactions := by
  have hmem : r ∈ t.filter (fun x => x.brand == r.brand && x.topic == r.topic) :=
    List.mem_filter.mpr ⟨hr, by simp⟩
  have hlen := length_filter_pair_le t h r.brand r.topic
  rcases hm : t.filter (fun x => x.brand == r.brand && x.topic == r.topic) with
    _ | ⟨x, tl⟩
  · rw [hm] at hmem; cases hmem
  · rcases tl with _ | ⟨y, rest⟩
    · rw [hm] at hmem
      rcases List.mem_cons.mp hmem with rfl | hc
      · simp [pivotCell, hm]
      · cases hc
    · rw [hm] at hlen; simp at hlen

/-- A combination with no record pivots to a missing (`NaN`) cell. -/
theorem pivotCell_eq_none (t : Table) (b top : String)
    (h : ∀ r ∈ t, ¬(r.brand = b ∧ r.topic = top)) : pivotCell t b top = none := by
  have hfl : t.filter (fun r => r.brand == b && r.topic == top) = [] := by
    apply List.filter_eq_nil_iff.mpr
    intro r hr
    have := h r hr
    simp only [Bool.and_eq_true, beq_iff_eq]
    tauto
  simp [pivotCell, hfl]

/-! ## Helper lemmas: Sankey node membership and lookup -/

theorem mem_sankeyTopics (t : Table) (r : Record) (hr : r ∈ sankeyRows t) :
    r.topic ∈ sankeyTopics t := by
  rw [sankeyTopics, mem_sortKey, mem_uniqueFirst]
  exact List.mem_map_of_mem _ hr

theorem mem_sankeyBrands (t : Table) (r : Record) (hr : r ∈ sankeyRows t) :
    r.brand ∈ sankeyBrands t := by
  rw [sankeyBrands, mem_sortKey, mem_uniqueFirst]
  exact List.mem_map_of_mem _ hr

theorem getD_append_left (l1 l2 : List String) (i : Nat) (h : i < l1.length)
    (d : String) : (l1 ++ l2).getD i d = l1.getD i d := by
  rw [List.getD_eq_getElem?_getD, List.getD_eq_getElem?_getD,
    List.getElem?_append_left h]

theorem getD_append_right (l1 l2 : List String) (i : Nat)
    (h : l1.length ≤ i) (d : String) :
    (l1 ++ l2).getD i d = l2.getD (i - l1.length) d := by
  rw [List.getD_eq_getElem?_getD, List.getD_eq_getElem?_getD,
    List.getElem?_append_right h]

theorem getD_indexOf (l : List String) (a : String) (h : a ∈ l) (d : String) :
    l.getD (l.indexOf a) d = a := by
  have hlt := List.indexOf_lt_length.mpr h
  rw [List.getD_eq_getElem?_getD, List.getElem?_eq_getElem hlt]
  simp [List.getElem_indexOf hlt]

/-! ## C1: structure of the Sankey flow chart -/

/-- C1 (counterexample): the claimed synthetic root `"public"` node does not
exist.  On a two-topic, two-brand table the diagram has exactly
`2 + 2 = 4` nodes, none of them a root `"public"` node, and every link
originates at one of the two topic nodes (index `< 2`), so no root→topic
edges exist either. -/
theorem sankey_root_counterexample :
    "public" ∉ sankeyNodeNames exFlow ∧
    (sankeyNodeNames exFlow).length = 4 ∧
    (∀ l ∈ sankeyLinks exFlow, l.src < 2) := by
  refine ⟨by decide, by decide, by decide⟩

/-- C1 (amended): the flow chart built by `create_sankey_diagram` has a
two-tier node set — one node per topic and one node per brand occurring in a
positive-interactions record, with no synthetic root node — and its edges
are exactly one topic→brand edge per positive-interactions record, weighted
by that record's interaction count. -/
theorem sankey_two_tier_flow (t : Table) :
    (sankeyNodeNames t).length
      = (sankeyTopics t).length + (sankeyBrands t).length ∧
    (∀ l ∈ sankeyLinks t,
      l.src < (sankeyTopics t).length ∧
      (sankeyTopics t).length ≤ l.tgt ∧
      l.tgt < (sankeyNodeNames t).length ∧
      ∃ r ∈ t, 0 < r.interactions ∧ l.val = r.interactions ∧
        (sankeyNodeNames t).getD l.src "" = r.topic ∧
        (sankeyNodeNames t).getD l.tgt "" = r.brand) ∧
    (∀ r ∈ t, 0 < r.interactions →
      ∃ l ∈ sankeyLinks t, l.val = r.interactions ∧
        (sankeyNodeNames t).getD l.src "" = r.topic ∧
        (sankeyNodeNames t).getD l.tgt "" = r.brand) := by
  refine ⟨by simp [sankeyNodeNames], ?_, ?_⟩
  · intro l hl
    rcases List.mem_map.mp hl with ⟨r, hr, rfl⟩
    have hrt : r ∈ t := (List.mem_filter.mp hr).1
    have hpos : 0 < r.interactions := by
      have := (List.mem_filter.mp hr).2
      simpa using this
    have htop := mem_sankeyTopics t r hr
    have hbr := mem_sankeyBrands t r hr
    have hsrc : (sankeyTopics t).indexOf r.topic < (sankeyTopics t).length :=
      List.indexOf_lt_length.mpr htop
    have htgt : (sankeyBrands t).indexOf r.brand < (sankeyBrands t).length :=
      List.indexOf_lt_length.mpr hbr
    refine ⟨hsrc, Nat.le_add_right _ _, ?_, r, hrt, hpos, rfl, ?_, ?_⟩
    · simp only [sankeyNodeNames, List.length_append]
      omega
    · rw [sankeyNodeNames, getD_append_left _ _ _ hsrc,
        getD_indexOf _ _ htop]
    · rw [sankeyNodeNames, getD_append_right _ _ _ (Nat.le_add_right _ _)]
      simp only [Nat.add_sub_cancel_left]
      rw [getD_indexOf _ _ hbr]
  · intro r hrt hpos
    have hr : r ∈ sankeyRows t :=
      List.mem_filter.mpr ⟨hrt, by simpa using hpos⟩
    have htop := mem_sankeyTopics t r hr
    have hbr := mem_sankeyBrands t r hr
    have hsrc : (sankeyTopics t).indexOf r.topic < (sankeyTopics t).length :=
      List.indexOf_lt_length.mpr htop
    refine ⟨{ src := (sankeyTopics t).indexOf r.topic
              tgt := (sankeyTopics t).length + (sankeyBrands t).indexOf r.brand
              val := r.interactions },
      List.mem_map_of_mem _ hr, rfl, ?_, ?_⟩
    · rw [sankeyNodeNames, getD_append_left _ _ _ hsrc,
        getD_indexOf _ _ htop]
    · rw [sankeyNodeNames, getD_append_right _ _ _ (Nat.le_add_right _ _)]
      simp only [Nat.add_sub_cancel_left]
      rw [getD_indexOf _ _ hbr]

/-- C1 (witness): the amended theorem evaluated on the concrete two-topic,
two-brand table. -/
theorem sankey_two_tier_flow_witness :
    (sankeyNodeNames exFlow).length
      = (sankeyTopics exFlow).length + (sankeyBrands exFlow).length :=
  (sankey_two_tier_flow exFlow).1

/-! ## C2: zero rows in the flow chart vs missing cells in the matrix -/

/-- C2 (counterexample): a `(brand, topic)` combination with no record does
not pivot to a cell with value `0`; it pivots to a missing (`NaN`) cell.
In `exSparse` the combination `("B", "T2")` has no record, yet its cell is
`none`, not `some 0`. -/
theorem missing_cell_counterexample :
    (∀ r ∈ exSparse, ¬(r.brand = "B" ∧ r.topic = "T2")) ∧
    pivotCell exSparse "B" "T2" ≠ some 0 := by
  refine ⟨by decide, by decide⟩

/-- C2 (amended): a record with zero interactions contributes no edge to the
flow chart (every Sankey link has positive weight); a `(brand, topic)`
combination that has a zero record appears in the pivoted matrix as a cell
with value `0`; but a combination with no record appears as a missing
(`NaN`) cell, not as `0`. -/
theorem zero_rows_flow_vs_matrix (t : Table) (h : (pairKeys t).Nodup) :
    (∀ l ∈ sankeyLinks t, 0 < l.val) ∧
    (∀ r ∈ t, r.interactions = 0 → pivotCell t r.brand r.topic = some 0) ∧
    (∀ b top, (∀ r ∈ t, ¬(r.brand = b ∧ r.topic = top)) →
      pivotCell t b top = none) := by
  refine ⟨?_, ?_, ?_⟩
  · intro l hl
    rcases List.mem_map.mp hl with ⟨r, hr, rfl⟩
    have := (List.mem_filter.mp hr).2
    simpa using this
  · intro r hr h0
    rw [pivotCell_of_mem t h r hr, h0]
  · intro b top hno
    exact pivotCell_eq_none t b top hno

/-- C2 (witness): on the sparse table, the zero record `("A", "T2")` yields
the cell `some 0` and no flow edge, while positive records yield positive
edges. -/
theorem zero_rows_flow_vs_matrix_witness :
    pivotCell exSparse "A" "T2" = some 0 := by
  have h := (zero_rows_flow_vs_matrix exSparse (by decide)).2.1
    ⟨"A", "T2", 0, 0, 0, 0⟩ (by decide) rfl
  exact h

/-! ## C3: determinism of the color assignment -/

/-- No key of an association list differs from every key means lookup
fails. -/
theorem dictGet_eq_none (m : List (String × String)) (k : String)
    (h : ∀ p ∈ m, p.1 ≠ k) : dictGet m k = none := by
  induction m with
  | nil => rfl
  | cons p m ih =>
      rcases p with ⟨k1, v1⟩
      have hrest := ih (fun q hq => h q (List.mem_cons_of_mem _ hq))
      have hk1 : k1 ≠ k := h (k1, v1) (List.mem_cons_self _ _)
      simp [dictGet, hrest, hk1]

/-- Lookup of a key assigned at the front, not reassigned later, succeeds. -/
theorem dictGet_cons_self (k v : String) (m : List (String × String))
    (h : dictGet m k = none) : dictGet ((k, v) :: m) k = some v := by
  simp [dictGet, h]

/-- The focus brand always resolves to the reserved highlight color. -/
theorem dictGet_create_color_map_kyocera (bs : List String) :
    dictGet (create_color_map bs) "Kyocera" = some KYOCERA_PRIMARY := by
  have htail : dictGet ((bs.filter (fun b => !(b == "Kyocera"))).enum.map
      (fun p => (p.2, BRAND_COLORS.getD (p.1 % BRAND_COLORS.length) "")))
      "Kyocera" = none := by
    apply dictGet_eq_none
    intro p hp
    rcases List.mem_map.mp hp with ⟨q, hq, rfl⟩
    have hq2 : q.2 ∈ (bs.filter (fun b => !(b == "Kyocera"))).enum.map
        Prod.snd := List.mem_map_of_mem _ hq
    rw [List.enum_map_snd] at hq2
    have := (List.mem_filter.mp hq2).2
    simpa using this
  rw [create_color_map]
  exact dictGet_cons_self _ _ _ htail

/-- C3 (counterexample): `create_color_map` is not a pure function of the
brand set.  The inputs `["A", "B"]` and `["B", "A"]` contain the same set of
brands (they are permutations of each other), yet the non-focus brand `"A"`
receives a different palette color in the two runs. -/
theorem color_map_set_counterexample :
    List.Perm ["A", "B"] ["B", "A"] ∧
    dictGet (create_color_map ["A", "B"]) "A"
      ≠ dictGet (create_color_map ["B", "A"]) "A" := by
  refine ⟨by decide, by decide⟩

/-- C3 (amended): `create_color_map` is a pure function of the input
*sequence* of brands: the focus brand always receives the reserved highlight
color, and any two inputs whose non-focus brands appear in the same order
receive identical assignments.  Inputs that agree only as sets may assign
different palette colors, since palette colors are assigned by input
position. -/
theorem color_map_ordered_deterministic (bs1 bs2 : List String)
    (h : bs1.filter (fun b => !(b == "Kyocera"))
        = bs2.filter (fun b => !(b == "Kyocera"))) :
    (∀ b, dictGet (create_color_map bs1) b
        = dictGet (create_color_map bs2) b) ∧
    dictGet (create_color_map bs1) "Kyocera" = some KYOCERA_PRIMARY := by
  have hmap : create_color_map bs1 = create_color_map bs2 := by
    rw [create_color_map, create_color_map, h]
  exact ⟨fun b => by rw [hmap], dictGet_create_color_map_kyocera bs1⟩

/-- C3 (witness): the amended determinism evaluated on two concrete inputs
whose non-focus brands agree in order (`Kyocera` placed differently). -/
theorem color_map_ordered_deterministic_witness :
    dictGet (create_color_map ["A", "Kyocera", "B"]) "A"
      = dictGet (create_color_map ["Kyocera", "A", "B"]) "A" :=
  (color_map_ordered_deterministic ["A", "Kyocera", "B"]
    ["Kyocera", "A", "B"] (by decide)).1 "A"

/-! ## C4: the focus-brand share per topic -/

/-- C4: for every table with duplicate-free `(Brand, Topic)` pairs (the
shape pandas requires of this dataset) and every topic, the share equals
`focus_interactions / topic_total × 100` when the topic total is positive,
equals `0` when the topic total is `0` (the division is guarded), and always
lies in `[0, 100]`. -/
theorem kyocera_share_bounds (t : Table) (top : String)
    (_h : (pairKeys t).Nodup) :
    (0 < topicTotal t top →
      kyoceraShare t top
        = (kyoceraVal t top : ℚ) / (topicTotal t top : ℚ) * 100) ∧
    (topicTotal t top = 0 → kyoceraShare t top = 0) ∧
    0 ≤ kyoceraShare t top ∧ kyoceraShare t top ≤ 100 := by
  have hle : kyoceraVal t top ≤ topicTotal t top := by
    rcases hl : (t.filter (fun r => r.brand == "Kyocera")).filter
        (fun r => r.topic == top) with _ | ⟨r, tl⟩
    · simp [kyoceraVal, hl]
    · have hr : r ∈ (t.filter (fun x => x.brand == "Kyocera")).filter
          (fun x => x.topic == top) := by
        rw [hl]; exact List.mem_cons_self r tl
      have hr1 := List.mem_filter.mp hr
      have hr2 := List.mem_filter.mp hr1.1
      have hrt : r ∈ t.filter (fun x => x.topic == top) :=
        List.mem_filter.mpr ⟨hr2.1, hr1.2⟩
      have hmem : r.interactions
          ∈ (t.filter (fun x => x.topic == top)).map
              (fun x => x.interactions) :=
        List.mem_map_of_mem _ hrt
      have hsum := List.le_sum_of_mem hmem
      simpa [kyoceraVal, hl, topicTotal] using hsum
  by_cases hpos : 0 < topicTotal t top
  · have hT : (0 : ℚ) < (topicTotal t top : ℚ) := by exact_mod_cast hpos
    have hshare : kyoceraShare t top
        = (kyoceraVal t top : ℚ) / (topicTotal t top : ℚ) * 100 := by
      rw [kyoceraShare, if_pos hpos]
    refine ⟨fun _ => hshare, fun h0 => absurd h0 (Nat.pos_iff_ne_zero.mp hpos),
      ?_, ?_⟩
    · rw [hshare]
      positivity
    · rw [hshare]
      have h1 : (kyoceraVal t top : ℚ) / (topicTotal t top : ℚ) ≤ 1 :=
        (div_le_one hT).mpr (by exact_mod_cast hle)
      calc (kyoceraVal t top : ℚ) / (topicTotal t top : ℚ) * 100
          ≤ 1 * 100 := by
            exact mul_le_mul_of_nonneg_right h1 (by norm_num)
        _ = 100 := one_mul 100
  · have hshare : kyoceraShare t top = 0 := by
      rw [kyoceraShare, if_neg hpos]
    exact ⟨fun hc => absurd hc hpos, fun _ => hshare,
      by rw [hshare], by rw [hshare]; norm_num⟩

/-- C4 (witness): the share theorem evaluated on the seven-brand table
(`Kyocera` holds 10 of the 280 interactions of topic `"T"`). -/
theorem kyocera_share_bounds_witness :
    0 ≤ kyoceraShare exSeven "T" ∧ kyoceraShare exSeven "T" ≤ 100 :=
  (kyocera_share_bounds exSeven "T" (by decide)).2.2

/-! ## C5: the top-N brand list of the topic breakdown -/

/-- C5: when the dataset has at least 6 distinct brands, the top-brand list
of `create_topic_breakdown` contains the focus brand, has exactly 6 entries,
every non-focus entry ranks among the 6 brands of highest total
interactions, and when the focus brand is not among those 6 the list
consists of the focus brand plus the top 5 (the 6th-ranked brand is the one
dropped). -/
theorem top_brands_spec (t : Table) (h6 : 6 ≤ (allBrands t).length) :
    "Kyocera" ∈ top_brands t ∧
    (top_brands t).length = 6 ∧
    (∀ b ∈ top_brands t, b = "Kyocera" ∨ b ∈ (brandRanking t).take 6) ∧
    ("Kyocera" ∉ (brandRanking t).take 6 →
      ∀ b ∈ top_brands t, b = "Kyocera" ∨ b ∈ (brandRanking t).take 5) := by
  have hlen : (brandRanking t).length = (allBrands t).length :=
    length_sortKey _ _
  have hlen6 : ((brandRanking t).take 6).length = 6 := by
    rw [List.length_take]
    omega
  by_cases hk : "Kyocera" ∈ (brandRanking t).take 6
  · have htb : top_brands t = (brandRanking t).take 6 := by
      simp only [top_brands]
      rw [if_pos hk]
    rw [htb]
    exact ⟨hk, hlen6, fun b hb => Or.inr hb, fun hnk => absurd hk hnk⟩
  · have htb : top_brands t
        = "Kyocera" :: ((brandRanking t).take 6).take 5 := by
      simp only [top_brands]
      rw [if_neg hk]
    rw [htb]
    have htk : ((brandRanking t).take 6).take 5 = (brandRanking t).take 5 := by
      rw [List.take_take]
      norm_num
    refine ⟨List.mem_cons_self _ _, ?_, ?_, ?_⟩
    · rw [List.length_cons, htk, List.length_take]
      omega
    · intro b hb
      rcases List.mem_cons.mp hb with rfl | hb2
      · exact Or.inl rfl
      · exact Or.inr ((List.take_sublist 5 _).mem hb2)
    · intro _ b hb
      rcases List.mem_cons.mp hb with rfl | hb2
      · exact Or.inl rfl
      · rw [htk] at hb2
        exact Or.inr hb2

/-- C5 (witness): on the seven-brand table where `Kyocera` ranks last, the
forced inclusion puts the focus brand into the six-entry list. -/
theorem top_brands_spec_witness :
    "Kyocera" ∈ top_brands exSeven ∧ (top_brands exSeven).length = 6 :=
  ⟨(top_brands_spec exSeven (by decide)).1,
    (top_brands_spec exSeven (by decide)).2.1⟩

/-! ## C6: the matrix reconciles with the grouped totals -/

/-- C6: for every table with duplicate-free `(Brand, Topic)` pairs (the
shape required for the pivot to exist at all), summing the brand×topic
matrix cells of a topic over all brands (missing cells counting as `0`, as
pandas `sum` skips `NaN`) gives that topic's grouped total, and summing a
brand's row over all topics gives that brand's grouped total. -/
theorem heatmap_reconciliation (t : Table) (h : (pairKeys t).Nodup) :
    (∀ top, ((pivotBrands t).map
        (fun b => (pivotCell t b top).getD 0)).sum = topicTotal t top) ∧
    (∀ b, ((pivotTopics t).map
        (fun top => (pivotCell t b top).getD 0)).sum = brandTotal t b) := by
  constructor
  · intro top
    have hcell : ∀ b ∈ pivotBrands t, (pivotCell t b top).getD 0
        = (((t.filter (fun r => r.topic == top)).filter
            (fun r => r.brand == b)).map (fun r => r.interactions)).sum := by
      intro b _
      rw [pivotCell_getD t h b top, List.filter_filter]
    rw [List.map_congr_left hcell]
    have hnd : (pivotBrands t).Nodup :=
      nodup_sortKey _ _ (nodup_uniqueFirst _)
    have hall : ∀ r ∈ t.filter (fun r => r.topic == top),
        r.brand ∈ pivotBrands t := by
      intro r hr
      rw [pivotBrands, mem_sortKey, mem_uniqueFirst]
      exact List.mem_map_of_mem _ (List.mem_filter.mp hr).1
    exact sum_filter_partition (fun r => r.brand)
      (t.filter (fun r => r.topic == top)) (pivotBrands t) hnd hall
  · intro b
    have hcell : ∀ top ∈ pivotTopics t, (pivotCell t b top).getD 0
        = (((t.filter (fun r => r.brand == b)).filter
            (fun r => r.topic == top)).map (fun r => r.interactions)).sum := by
      intro top _
      rw [pivotCell_getD t h b top, List.filter_filter]
      have hcomm : t.filter (fun r => r.brand == b && r.topic == top)
          = t.filter (fun r => r.topic == top && r.brand == b) :=
        List.filter_congr (fun r _ => by rw [Bool.and_comm])
      rw [hcomm]
    rw [List.map_congr_left hcell]
    have hnd : (pivotTopics t).Nodup :=
      nodup_sortKey _ _ (nodup_uniqueFirst _)
    have hall : ∀ r ∈ t.filter (fun r => r.brand == b),
        r.topic ∈ pivotTopics t := by
      intro r hr
      rw [pivotTopics, mem_sortKey, mem_uniqueFirst]
      exact List.mem_map_of_mem _ (List.mem_filter.mp hr).1
    exact sum_filter_partition (fun r => r.topic)
      (t.filter (fun r => r.brand == b)) (pivotTopics t) hnd hall

/-- C6 (witness): the reconciliation evaluated on the sparse table — topic
`"T1"` sums to `8` across brands, brand `"A"` sums to `5` across topics. -/
theorem heatmap_reconciliation_witness :
    ((pivotBrands exSparse).map
        (fun b => (pivotCell exSparse b "T1").getD 0)).sum
      = topicTotal exSparse "T1" :=
  (heatmap_reconciliation exSparse (by decide)).1 "T1"

/-! ## C7: atomicity of the combined dashboard export -/

/-- C7: the combined dashboard fails atomically — if any of the figure
builders raises, no combined document is written at all (all six
specifications are built before the single write); if all succeed, the
document is written. -/
theorem dashboard_atomic (figs : List (Except String String)) :
    (anyFailed figs = true → create_presentation_dashboard figs = none) ∧
    (anyFailed figs = false →
      ∃ d, create_presentation_dashboard figs = some d) := by
  induction figs with
  | nil =>
      refine ⟨fun h => by simp [anyFailed] at h, fun _ => ?_⟩
      exact ⟨String.intercalate "\n" [], rfl⟩
  | cons f fs ih =>
      cases f with
      | error e =>
          refine ⟨fun _ => by simp [create_presentation_dashboard, buildAll],
            fun h => by simp [anyFailed] at h⟩
      | ok s =>
          have hstep : anyFailed (Except.ok s :: fs) = anyFailed fs := by
            simp [anyFailed]
          constructor
          · intro h
            rw [hstep] at h
            have hfs := ih.1 h
            rcases hb : buildAll fs with e | ss
            · simp [create_presentation_dashboard, buildAll, hb]
            · rw [create_presentation_dashboard, hb] at hfs
              simp at hfs
          · intro h
            rw [hstep] at h
            rcases ih.2 h with ⟨d, hd⟩
            rcases hb : buildAll fs with e | ss
            · rw [create_presentation_dashboard, hb] at hd
              simp at hd
            · refine ⟨String.intercalate "\n" (s :: ss), ?_⟩
              simp [create_presentation_dashboard, buildAll, hb]

/-- C7 (witness): with the second builder failing, the combined document is
not written; with all builders succeeding, it is. -/
theorem dashboard_atomic_witness :
    create_presentation_dashboard
      [Except.ok "a", Except.error "boom", Except.ok "c"] = none :=
  (dashboard_atomic [Except.ok "a", Except.error "boom", Except.ok "c"]).1
    (by decide)

/-! ## C8: keyboard navigation clamps at the panel boundaries -/

/-- C8: from every panel index `i ≤ 5`, ArrowRight moves to `min (i+1) 5`
and ArrowLeft to `max (i-1) 0`; in particular ArrowRight on the last panel
and ArrowLeft on the first panel leave the active panel unchanged (no
wraparound), and other keys do nothing. -/
theorem keydown_clamps (i : Nat) (h : i ≤ 5) :
    keydownHandler Key.arrowRight i = min (i + 1) 5 ∧
    (keydownHandler Key.arrowLeft i : ℤ) = max ((i : ℤ) - 1) 0 ∧
    keydownHandler Key.arrowRight 5 = 5 ∧
    keydownHandler Key.arrowLeft 0 = 0 ∧
    keydownHandler Key.other i = i := by
  refine ⟨?_, ?_, rfl, rfl, rfl⟩
  · rw [keydownHandler]
    by_cases h1 : i < 5
    · rw [if_pos h1]
      omega
    · rw [if_neg h1]
      omega
  · rw [keydownHandler]
    by_cases h1 : 0 < i
    · rw [if_pos h1]
      omega
    · rw [if_neg h1]
      omega

/-- C8 (witness): the clamping behavior evaluated at panel index 5. -/
theorem keydown_clamps_witness :
    keydownHandler Key.arrowRight 5 = min (5 + 1) 5 :=
  (keydown_clamps 5 (by decide)).1

/-! ## C9: the static-image exporter aborts with a diagnostic -/

/-- One step of the export loop. -/
theorem exportLoop_cons (ok : String → Bool) (n : String)
    (rest : List String) (s : ExportState) :
    exportLoop ok (n :: rest) s =
      if ok n then
        exportLoop ok rest
          { htmlFiles := s.htmlFiles ++ [n ++ ".html"]
            pngFiles := s.pngFiles ++ [n ++ ".png"]
            diagnostics := s.diagnostics }
      else
        { htmlFiles := s.htmlFiles ++ [n ++ ".html"]
          pngFiles := s.pngFiles
          diagnostics := s.diagnostics ++
            ["Error: PNG export failed for " ++ n, GUIDANCE_MESSAGE] } := rfl

/-- Running the export loop over charts split as `pre ++ bad :: post`,
where every `pre` chart exports fine and `bad` fails: the loop stops at
`bad` with the diagnostic appended and every file written so far intact. -/
theorem exportLoop_split (ok : String → Bool) (post : List String)
    (bad : String) (hbad : ok bad = false) :
    ∀ (pre : List String) (s : ExportState), (∀ n ∈ pre, ok n = true) →
      exportLoop ok (pre ++ bad :: post) s =
        { htmlFiles := s.htmlFiles ++ (pre ++ [bad]).map (fun n => n ++ ".html")
          pngFiles := s.pngFiles ++ pre.map (fun n => n ++ ".png")
          diagnostics := s.diagnostics ++
            ["Error: PNG export failed for " ++ bad, GUIDANCE_MESSAGE] } := by
  intro pre
  induction pre with
  | nil =>
      intro s _
      rw [List.nil_append, exportLoop_cons, if_neg (by simp [hbad])]
      simp
  | cons n pre ih =>
      intro s hpre
      have hn : ok n = true := hpre n (List.mem_cons_self n pre)
      rw [List.cons_append, exportLoop_cons, if_pos hn,
        ih _ (fun m hm => hpre m (List.mem_cons_of_mem n hm))]
      simp [List.append_assoc]

/-- C9: when the PNG export of some chart fails (all earlier ones having
succeeded), the run aborts at that chart: the diagnostic with actionable
guidance is printed, no later chart is exported (the PNG list stops before
the failing chart), and every interactive HTML artifact written before the
failure is still present, uncorrupted by the handler. -/
theorem static_export_abort (ok : String → Bool) (pre post : List String)
    (bad : String) (hsplit : chartNames = pre ++ bad :: post)
    (hpre : ∀ n ∈ pre, ok n = true) (hbad : ok bad = false) :
    (generate_static_images ok).htmlFiles
      = (pre ++ [bad]).map (fun n => n ++ ".html") ∧
    (generate_static_images ok).pngFiles = pre.map (fun n => n ++ ".png") ∧
    (generate_static_images ok).diagnostics
      = ["Error: PNG export failed for " ++ bad, GUIDANCE_MESSAGE] := by
  rw [generate_static_images, hsplit,
    exportLoop_split ok post bad hbad pre _ hpre]
  refine ⟨by simp, by simp, by simp⟩

/-- C9 (witness): with the heatmap PNG export failing, the run stops there —
the Sankey PNG and both HTML files exist, the four later charts are not
attempted, and the diagnostic with guidance is printed. -/
theorem static_export_abort_witness :
    (generate_static_images
        (fun n => !(n == "heatmap_interactions"))).diagnostics
      = ["Error: PNG export failed for heatmap_interactions",
          GUIDANCE_MESSAGE] :=
  (static_export_abort (fun n => !(n == "heatmap_interactions"))
    ["sankey_brand_flow"]
    ["kyocera_comparison", "topic_breakdown", "scatter_reach_interactions",
      "kyocera_market_share"]
    "heatmap_interactions" (by decide) (by decide) (by decide)).2.2

/-! ## C10: the pivot requires unique `(Brand, Topic)` pairs -/

/-- C10: uniqueness of `(Brand, Topic)` pairs is a precondition of the
matrix builder — whenever some combination occurs in more than one record,
`df.pivot` raises and no heatmap is produced. -/
theorem heatmap_duplicate_raises (t : Table) (b top : String)
    (h : 2 ≤ (t.filter (fun r => r.brand == b && r.topic == top)).length) :
    heatmapResult t
      = Except.error "Index contains duplicate entries, cannot reshape" := by
  have hnd : ¬(pairKeys t).Nodup := by
    intro hn
    have := length_filter_pair_le t hn b top
    omega
  rw [heatmapResult, if_neg hnd]

/-- C10 (witness): two records sharing the `("A", "T")` pair make the pivot
raise. -/
theorem heatmap_duplicate_raises_witness :
    heatmapResult exDup
      = Except.error "Index contains duplicate entries, cannot reshape" :=
  heatmap_duplicate_raises exDup "A" "T" (by decide)

end BrandViz
